import Mathlib

/-!
Formal model of the ERM process diagram renderer: circular layout,
SVG connector generation, highlight interaction and resize debouncing.
The definitions below are translated from the repository's scripts: the
math-based circular variant of script.js (its CONFIG, positionStepsInCircle,
setupSVG, generateArrows, createSmoothBezierArrow, highlightStepAndArrow,
removeHighlights, init and the debounced resize handler), and the arc-mode
variant for the trimmed-arc connector angles and the large-arc flag.
-/

/-- CONFIG.arrowColor of the circular script: baseline connector stroke color. -/
def arrowColor : String := "#BD9D64"

/-- CONFIG.arrowThickness of the circular script: baseline stroke width. -/
def arrowThickness : Nat := 4

/-- CONFIG.hoverGlowColor of the circular script: highlighted stroke color. -/
def hoverGlowColor : String := "#D4B682"

/-- CONFIG.hoverGlowThickness of the circular script: highlighted stroke width. -/
def hoverGlowThickness : Nat := 6

/-- Class token the scripts add to a highlighted step or connector. -/
def highlightedClass : String := "highlighted"

/-- Class token carried by every generated connector path. -/
def arrowPathClass : String := "arrow-path"

/-- Marker reference set as marker-end on every generated connector path. -/
def arrowheadMarker : String := "url(#arrowhead)"

/-- Key value of the Enter key checked by the keydown handler. -/
def enterKey : String := "Enter"

/-- Key value of the space key checked by the keydown handler. -/
def spaceKey : String := " "

/-- A step card element; the highlight logic only ever mutates its class list. -/
structure StepElem where
  classes : List String
deriving DecidableEq

/-- A connector path element: the stroke attributes and the class list, which
are exactly the parts mutated by highlightStepAndArrow and removeHighlights. -/
structure ArrowPathElem where
  stroke : String
  strokeWidth : Nat
  classes : List String
deriving DecidableEq

/-- The render state seen by the interaction layer: step cards and connector
paths in document order. -/
structure DiagramState where
  steps : List StepElem
  arrows : List ArrowPathElem
deriving DecidableEq

/-- DOM classList.add: appends the token if it is not already present. -/
def classListAdd (c : String) (cs : List String) : List String :=
  if c ∈ cs then cs else cs ++ [c]

/-- DOM classList.remove: drops the token from the list. -/
def classListRemove (c : String) (cs : List String) : List String :=
  cs.filter (fun x => x ≠ c)

/-- forEach with the element index, as the scripts iterate over steps and
over arrow paths. -/
def mapIdxFrom (f : Nat → α → α) : Nat → List α → List α
  | _, [] => []
  | n, a :: as => f n a :: mapIdxFrom f (n + 1) as

/-- highlightStepAndArrow of the circular script: adds the highlighted class
to the step at stepIndex (if it exists) and gives the arrow path with the
same index the glow stroke, glow width and the highlighted class. -/
def highlightStepAndArrow (stepIndex : Nat) (s : DiagramState) : DiagramState where
  steps := mapIdxFrom
    (fun i st => if i = stepIndex then ⟨classListAdd highlightedClass st.classes⟩ else st)
    0 s.steps
  arrows := mapIdxFrom
    (fun i a =>
      if i = stepIndex then
        ⟨hoverGlowColor, hoverGlowThickness, classListAdd highlightedClass a.classes⟩
      else a)
    0 s.arrows

/-- removeHighlights of the circular script: strips the highlighted class from
every step, resets every arrow path's stroke color and width to the configured
baseline and strips its highlighted class. -/
def removeHighlights (s : DiagramState) : DiagramState where
  steps := s.steps.map (fun st => ⟨classListRemove highlightedClass st.classes⟩)
  arrows := s.arrows.map
    (fun a => ⟨arrowColor, arrowThickness, classListRemove highlightedClass a.classes⟩)

/-- A baseline (idle) render state: no residual highlighted class anywhere and
every arrow path carrying the configured baseline stroke color and width. -/
def IsBaseline (s : DiagramState) : Prop :=
  (∀ st ∈ s.steps, highlightedClass ∉ st.classes) ∧
  ∀ a ∈ s.arrows, a.stroke = arrowColor ∧ a.strokeWidth = arrowThickness ∧
    highlightedClass ∉ a.classes

instance (s : DiagramState) : Decidable (IsBaseline s) := by
  unfold IsBaseline
  infer_instance

/-- Result of the keydown handler attached to a step: the (unchanged) render
state, whether preventDefault ran, and what was logged. -/
structure KeydownResult where
  state : DiagramState
  prevented : Bool
  logs : List String
deriving DecidableEq

/-- Keydown handler from attachEventListeners: on Enter or space it prevents
the default action and logs the selected step; it touches no highlight state. -/
def stepKeydown (index : Nat) (key : String) (s : DiagramState) : KeydownResult :=
  if key = enterKey ∨ key = spaceKey then
    ⟨s, true, ["Selected step " ++ toString (index + 1)]⟩
  else ⟨s, false, []⟩

/-- Mouseenter handler from attachEventListeners for the step at the given
index: it highlights the step and its connector. -/
def stepMouseenter (index : Nat) (s : DiagramState) : DiagramState :=
  highlightStepAndArrow index s

/-- A concrete idle render state with four steps and four baseline connector
paths, as produced by a render pass of the circular script. -/
def baselineState : DiagramState :=
  ⟨[⟨[]⟩, ⟨[]⟩, ⟨[]⟩, ⟨[]⟩],
   [⟨arrowColor, arrowThickness, [arrowPathClass]⟩,
    ⟨arrowColor, arrowThickness, [arrowPathClass]⟩,
    ⟨arrowColor, arrowThickness, [arrowPathClass]⟩,
    ⟨arrowColor, arrowThickness, [arrowPathClass]⟩]⟩

/-- A child of the arrows SVG element: a defs (marker definitions) element or
a generated connector path. -/
inductive SVGNode where
  | defsNode
  | pathNode (stepIndex : Nat)
deriving DecidableEq

/-- Whether an SVG child is a connector path (matched by querySelectorAll for
paths). -/
def isPathNode : SVGNode → Bool
  | SVGNode.pathNode _ => true
  | SVGNode.defsNode => false

/-- setupSVG of the circular script, restricted to its child-list effect:
it appends a freshly created defs element holding the arrowhead marker and
never removes a previously appended one. -/
def setupSVGChildren (svg : List SVGNode) : List SVGNode :=
  svg ++ [SVGNode.defsNode]

/-- generateArrows of the circular script, restricted to its child-list
effect: it removes every existing path child, then appends the numSteps
freshly created connector paths in index order. -/
def generateArrowsChildren (numSteps : Nat) (svg : List SVGNode) : List SVGNode :=
  svg.filter (fun c => !(isPathNode c)) ++ (List.range numSteps).map SVGNode.pathNode

/-- One layout pass over the SVG child list, as run by init and by the
debounced resize handler: setupSVG then generateArrows
(positionStepsInCircle does not touch the SVG children). -/
def layoutPassChildren (numSteps : Nat) (svg : List SVGNode) : List SVGNode :=
  generateArrowsChildren numSteps (setupSVGChildren svg)

/-- Number of defs (marker definition) elements currently in the SVG. -/
def countDefs (svg : List SVGNode) : Nat :=
  (svg.filter (fun c => c = SVGNode.defsNode)).length

/-- Number of connector path elements currently in the SVG. -/
def countPaths (svg : List SVGNode) : Nat :=
  (svg.filter (fun c => isPathNode c)).length

/-- One observable action of init, in execution order. -/
inductive InitAction where
  | logError
  | positionSteps
  | setupSVGStep
  | generateArrowsStep
  | attachListenersStep
deriving DecidableEq

/-- init of the circular script: if the arrows SVG is missing or the step
collection is empty it logs an error and returns; otherwise it positions the
steps, sets up the SVG, generates the arrows and attaches listeners. -/
def initTrace (svgPresent : Bool) (numSteps : Nat) : List InitAction :=
  if svgPresent = false ∨ numSteps = 0 then [InitAction.logError]
  else [InitAction.positionSteps, InitAction.setupSVGStep,
        InitAction.generateArrowsStep, InitAction.attachListenersStep]

/-- Debounce delay (milliseconds) used by the resize handler. -/
def debounceDelay : ℚ := 250

/-- Fire times of the debounced resize recomputation, given the strictly
increasing times of the incoming resize events: each event clears any pending
timer and schedules a new one debounceDelay later, so the timer of an event
fires exactly when no later event arrives before it goes off. -/
def debounceFireTimes : List ℚ → List ℚ
  | [] => []
  | [t] => [t + debounceDelay]
  | t :: t2 :: rest =>
      (if t + debounceDelay ≤ t2 then [t + debounceDelay] else []) ++
        debounceFireTimes (t2 :: rest)

noncomputable section

/-- Container size as measured by getBoundingClientRect. -/
structure ContainerSize where
  width : ℝ
  height : ℝ

/-- Math.min of the container's width and height, from positionStepsInCircle. -/
def circleSize (S : ContainerSize) : ℝ := min S.width S.height

/-- Center point computed by positionStepsInCircle: the container midpoint. -/
def circleCenter (S : ContainerSize) : ℝ × ℝ := (S.width / 2, S.height / 2)

/-- Circle radius computed by positionStepsInCircle: the size times
CONFIG.circleRadiusRatio, which is 0.35. -/
def circleRadius (S : ContainerSize) : ℝ := circleSize S * 0.35

/-- Angle of step k out of numSteps: the start angle at the top of the circle
plus k times the angle increment of a full turn over numSteps. -/
def stepAngle (numSteps k : Nat) : ℝ :=
  -(Real.pi / 2) + (2 * Real.pi / numSteps) * k

/-- Position written by positionStepsInCircle onto step k: the center plus the
radius rotated to the step's angle. -/
def stepPos (S : ContainerSize) (numSteps k : Nat) : ℝ × ℝ :=
  ((circleCenter S).1 + Real.cos (stepAngle numSteps k) * circleRadius S,
   (circleCenter S).2 + Real.sin (stepAngle numSteps k) * circleRadius S)

/-- Euclidean distance between two points of the plane. -/
def planeDist (p q : ℝ × ℝ) : ℝ :=
  Real.sqrt ((p.1 - q.1) ^ 2 + (p.2 - q.2) ^ 2)

/-- CONFIG.arrowOffset of the circular script: distance from a card center to
the connector start and end. -/
def arrowOffsetV3 : ℝ := 35

/-- A generated connector path of the circular script: the geometry of its
cubic Bezier path data together with the attributes set on the element. -/
structure BezierPath where
  startX : ℝ
  startY : ℝ
  control1X : ℝ
  control1Y : ℝ
  control2X : ℝ
  control2Y : ℝ
  endX : ℝ
  endY : ℝ
  stroke : String
  strokeWidth : Nat
  markerEnd : String
  classes : List String
  stepIndex : Nat

/-- createSmoothBezierArrow of the circular script: endpoints offset inward
from the card centers, control points pushed to 1.15 times the radius at 40
and 60 percent of the (normalized nonnegative) angle difference. -/
def createSmoothBezierArrow (fromAngle toAngle centerX centerY radius : ℝ)
    (stepIndex : Nat) : BezierPath :=
  let startX := centerX + Real.cos fromAngle * (radius - arrowOffsetV3)
  let startY := centerY + Real.sin fromAngle * (radius - arrowOffsetV3)
  let endX := centerX + Real.cos toAngle * (radius - arrowOffsetV3)
  let endY := centerY + Real.sin toAngle * (radius - arrowOffsetV3)
  let angleDiffRaw := toAngle - fromAngle
  let angleDiff := if angleDiffRaw < 0 then angleDiffRaw + 2 * Real.pi else angleDiffRaw
  let controlRadius := radius * 1.15
  let controlAngle1 := fromAngle + angleDiff * 0.4
  let controlAngle2 := fromAngle + angleDiff * 0.6
  { startX := startX, startY := startY,
    control1X := centerX + Real.cos controlAngle1 * controlRadius,
    control1Y := centerY + Real.sin controlAngle1 * controlRadius,
    control2X := centerX + Real.cos controlAngle2 * controlRadius,
    control2Y := centerY + Real.sin controlAngle2 * controlRadius,
    endX := endX, endY := endY,
    stroke := arrowColor, strokeWidth := arrowThickness,
    markerEnd := arrowheadMarker, classes := [arrowPathClass],
    stepIndex := stepIndex }

/-- generateArrows of the circular script: one Bezier connector per step,
built from the angle of step i to the angle of step (i+1) mod numSteps and
tagged with dataset.stepIndex = i. -/
def generateArrowsBezier (centerX centerY radius : ℝ) (numSteps : Nat) :
    List BezierPath :=
  (List.range numSteps).map fun i =>
    createSmoothBezierArrow (stepAngle numSteps i)
      (stepAngle numSteps ((i + 1) % numSteps)) centerX centerY radius i

/-- CONFIG.angleTrimDegrees of the arc-mode script, converted to radians as
in its generateArrows. -/
def angleTrimRadians : ℝ := 27 * Real.pi / 180

/-- Start-side trim of the arc-mode script: connector 1 uses a start trim
reduced by the 0.8 multiplier, every other connector the full trim. -/
def startTrimRadians (i : Nat) : ℝ :=
  if i = 1 then angleTrimRadians * 0.8 else angleTrimRadians

/-- Normalization used by the arc-mode generateArrows: add a full turn to a
negative angle. -/
def normAngle (x : ℝ) : ℝ := if x < 0 then x + 2 * Real.pi else x

/-- Post-trim start angle of connector i in the arc-mode generateArrows. -/
def arrowStartAngle (numSteps i : Nat) : ℝ :=
  normAngle (stepAngle numSteps i + startTrimRadians i)

/-- Post-trim end angle of connector i before the ordering fix-up. -/
def arrowEndAngleA (numSteps i : Nat) : ℝ :=
  normAngle (stepAngle numSteps ((i + 1) % numSteps) - angleTrimRadians)

/-- Post-trim end angle of connector i after the ordering fix-up that keeps
the end angle at or after the start angle. -/
def arrowEndAngle (numSteps i : Nat) : ℝ :=
  if arrowEndAngleA numSteps i < arrowStartAngle numSteps i then
    arrowEndAngleA numSteps i + 2 * Real.pi
  else arrowEndAngleA numSteps i

/-- Angular span actually used for the SVG arc command of connector i. -/
def arcSpan (numSteps i : Nat) : ℝ :=
  arrowEndAngle numSteps i - arrowStartAngle numSteps i

/-- Large-arc flag of the arc-mode generateArrows: 1 when the absolute span
exceeds half a turn, else 0. -/
def largeArcFlag (numSteps i : Nat) : Nat :=
  if Real.pi < |arcSpan numSteps i| then 1 else 0

end

lemma classListRemove_of_not_mem {c : String} {cs : List String} (h : c ∉ cs) :
    classListRemove c cs = cs := by
  unfold classListRemove
  rw [List.filter_eq_self]
  intro a ha
  simp only [ne_eq, decide_eq_true_eq]
  exact fun e => h (e ▸ ha)

lemma classListRemove_add_self (c : String) (cs : List String) :
    classListRemove c (classListAdd c cs) = classListRemove c cs := by
  unfold classListAdd
  split_ifs with hmem
  · rfl
  · unfold classListRemove
    rw [List.filter_append]
    simp

lemma classListRemove_add_of_not_mem {c : String} {cs : List String} (h : c ∉ cs) :
    classListRemove c (classListAdd c cs) = cs := by
  rw [classListRemove_add_self, classListRemove_of_not_mem h]

lemma classListRemove_idem (c : String) (cs : List String) :
    classListRemove c (classListRemove c cs) = classListRemove c cs := by
  unfold classListRemove
  rw [List.filter_filter]
  simp

lemma not_mem_classListRemove (c : String) (cs : List String) :
    c ∉ classListRemove c cs := by
  unfold classListRemove
  simp [List.mem_filter]

lemma steps_enter_leave (k : Nat) (l : List StepElem)
    (hb : ∀ st ∈ l, highlightedClass ∉ st.classes) : ∀ n : Nat,
    (mapIdxFrom
        (fun i st =>
          if i = k then ⟨classListAdd highlightedClass st.classes⟩ else st)
        n l).map
      (fun st => (⟨classListRemove highlightedClass st.classes⟩ : StepElem)) = l := by
  induction l with
  | nil => intro n; rfl
  | cons a as ih =>
    intro n
    have ha := hb a (List.mem_cons_self a as)
    have has : ∀ st ∈ as, highlightedClass ∉ st.classes :=
      fun st h => hb st (List.mem_cons_of_mem _ h)
    simp only [mapIdxFrom, List.map_cons, ih has]
    congr 1
    split_ifs with hik
    · simp only
      rw [classListRemove_add_of_not_mem ha]
    · rw [classListRemove_of_not_mem ha]

lemma arrows_enter_leave (k : Nat) (l : List ArrowPathElem)
    (hb : ∀ a ∈ l, a.stroke = arrowColor ∧ a.strokeWidth = arrowThickness ∧
      highlightedClass ∉ a.classes) : ∀ n : Nat,
    (mapIdxFrom
        (fun i a =>
          if i = k then
            ⟨hoverGlowColor, hoverGlowThickness, classListAdd highlightedClass a.classes⟩
          else a)
        n l).map
      (fun a =>
        (⟨arrowColor, arrowThickness, classListRemove highlightedClass a.classes⟩ :
          ArrowPathElem)) = l := by
  induction l with
  | nil => intro n; rfl
  | cons a as ih =>
    intro n
    obtain ⟨h1, h2, h3⟩ := hb a (List.mem_cons_self a as)
    have has : ∀ x ∈ as, x.stroke = arrowColor ∧ x.strokeWidth = arrowThickness ∧
        highlightedClass ∉ x.classes :=
      fun x h => hb x (List.mem_cons_of_mem _ h)
    simp only [mapIdxFrom, List.map_cons, ih has]
    congr 1
    split_ifs with hik
    · simp only
      rw [classListRemove_add_of_not_mem h3]
      cases a
      simp only at h1 h2 h3 ⊢
      rw [h1, h2]
    · rw [classListRemove_of_not_mem h3]
      cases a
      simp only at h1 h2 h3 ⊢
      rw [h1, h2]

lemma steps_remove_absorb (k : Nat) (l : List StepElem) : ∀ n : Nat,
    (mapIdxFrom
        (fun i st =>
          if i = k then ⟨classListAdd highlightedClass st.classes⟩ else st)
        n l).map
      (fun st => (⟨classListRemove highlightedClass st.classes⟩ : StepElem)) =
    l.map (fun st => (⟨classListRemove highlightedClass st.classes⟩ : StepElem)) := by
  induction l with
  | nil => intro n; rfl
  | cons a as ih =>
    intro n
    simp only [mapIdxFrom, List.map_cons, ih]
    congr 1
    split_ifs with hik
    · simp only
      rw [classListRemove_add_self]
    · rfl

lemma arrows_remove_absorb (k : Nat) (l : List ArrowPathElem) : ∀ n : Nat,
    (mapIdxFrom
        (fun i a =>
          if i = k then
            ⟨hoverGlowColor, hoverGlowThickness, classListAdd highlightedClass a.classes⟩
          else a)
        n l).map
      (fun a =>
        (⟨arrowColor, arrowThickness, classListRemove highlightedClass a.classes⟩ :
          ArrowPathElem)) =
    l.map
      (fun a =>
        (⟨arrowColor, arrowThickness, classListRemove highlightedClass a.classes⟩ :
          ArrowPathElem)) := by
  induction l with
  | nil => intro n; rfl
  | cons a as ih =>
    intro n
    simp only [mapIdxFrom, List.map_cons, ih]
    congr 1
    split_ifs with hik
    · simp only
      rw [classListRemove_add_self]
    · rfl

lemma remove_after_highlight (k : Nat) (s : DiagramState) :
    removeHighlights (highlightStepAndArrow k s) = removeHighlights s := by
  cases s with
  | mk st ar =>
    simp only [removeHighlights, highlightStepAndArrow, DiagramState.mk.injEq]
    exact ⟨steps_remove_absorb k st 0, arrows_remove_absorb k ar 0⟩

lemma remove_after_highlights (ks : List Nat) : ∀ s : DiagramState,
    removeHighlights (ks.foldl (fun st k => highlightStepAndArrow k st) s) =
      removeHighlights s := by
  induction ks with
  | nil => intro s; rfl
  | cons k ks ih =>
    intro s
    simp only [List.foldl_cons]
    rw [ih, remove_after_highlight]

lemma removeHighlights_idem (s : DiagramState) :
    removeHighlights (removeHighlights s) = removeHighlights s := by
  cases s with
  | mk st ar =>
    simp only [removeHighlights, List.map_map, DiagramState.mk.injEq]
    constructor
    · apply List.map_congr_left
      intro x _
      simp only [Function.comp_apply]
      rw [classListRemove_idem]
    · apply List.map_congr_left
      intro x _
      simp only [Function.comp_apply]
      rw [classListRemove_idem]

lemma isBaseline_removeHighlights (s : DiagramState) :
    IsBaseline (removeHighlights s) := by
  unfold IsBaseline removeHighlights
  constructor
  · intro st hst
    simp only [List.mem_map] at hst
    obtain ⟨x, _, rfl⟩ := hst
    exact not_mem_classListRemove _ _
  · intro a ha
    simp only [List.mem_map] at ha
    obtain ⟨x, _, rfl⟩ := ha
    exact ⟨rfl, rfl, not_mem_classListRemove _ _⟩

lemma normAngle_nonneg {x : ℝ} (h : -(2 * Real.pi) ≤ x) : 0 ≤ normAngle x := by
  unfold normAngle
  split_ifs with h1 <;> linarith

lemma normAngle_lt {x : ℝ} (h : x < 2 * Real.pi) : normAngle x < 2 * Real.pi := by
  unfold normAngle
  split_ifs with h1 <;> linarith

lemma normAngle_sub_int (x : ℝ) : ∃ m : ℤ, normAngle x = x + m * (2 * Real.pi) := by
  unfold normAngle
  split_ifs with h1
  · exact ⟨1, by push_cast; ring⟩
  · exact ⟨0, by push_cast; ring⟩

lemma stepAngle_lb (numSteps k : Nat) : -(Real.pi / 2) ≤ stepAngle numSteps k := by
  unfold stepAngle
  have h : 0 ≤ 2 * Real.pi / (numSteps : ℝ) * (k : ℝ) := by positivity
  linarith

lemma stepAngle_ub (numSteps k : Nat) (hN : 1 ≤ numSteps) (hk : k < numSteps) :
    stepAngle numSteps k < 3 * Real.pi / 2 := by
  unfold stepAngle
  have hπ := Real.pi_pos
  have hN0 : (0 : ℝ) < (numSteps : ℝ) := by exact_mod_cast hN
  have hk1 : (k : ℝ) ≤ (numSteps : ℝ) - 1 := by
    have : (k : ℝ) + 1 ≤ (numSteps : ℝ) := by exact_mod_cast Nat.succ_le_of_lt hk
    linarith
  have hincpos : 0 < 2 * Real.pi / (numSteps : ℝ) := by positivity
  have hmul : 2 * Real.pi / (numSteps : ℝ) * (k : ℝ) ≤
      2 * Real.pi / (numSteps : ℝ) * ((numSteps : ℝ) - 1) :=
    mul_le_mul_of_nonneg_left hk1 hincpos.le
  have heq : 2 * Real.pi / (numSteps : ℝ) * ((numSteps : ℝ) - 1) =
      2 * Real.pi - 2 * Real.pi / (numSteps : ℝ) := by
    field_simp
    ring
  rw [heq] at hmul
  linarith

lemma angleTrim_pos : 0 < angleTrimRadians := by
  unfold angleTrimRadians
  positivity

lemma angleTrim_le : angleTrimRadians ≤ Real.pi / 2 := by
  unfold angleTrimRadians
  have := Real.pi_pos
  linarith

lemma startTrim_pos (i : Nat) : 0 < startTrimRadians i := by
  unfold startTrimRadians angleTrimRadians
  split_ifs <;> positivity

lemma startTrim_le (i : Nat) : startTrimRadians i ≤ angleTrimRadians := by
  unfold startTrimRadians
  split_ifs with h
  · have := angleTrim_pos
    linarith
  · exact le_rfl

lemma debounce_burst (t : ℚ) (rest : List ℚ)
    (hc : List.Chain' (fun a b => a < b ∧ b < a + debounceDelay) (t :: rest)) :
    debounceFireTimes (t :: rest) = [(t :: rest).getLastD 0 + debounceDelay] ∧
    ∀ x ∈ t :: rest, x < (t :: rest).getLastD 0 + debounceDelay := by
  induction rest generalizing t with
  | nil =>
    refine ⟨rfl, ?_⟩
    intro x hx
    have hd : (0 : ℚ) < debounceDelay := by norm_num [debounceDelay]
    simp only [List.mem_singleton] at hx
    subst hx
    simp only [List.getLastD_cons, List.getLastD_nil]
    linarith
  | cons t2 rest2 ih =>
    rw [List.chain'_cons] at hc
    obtain ⟨⟨hlt, hwin⟩, hc2⟩ := hc
    obtain ⟨ihfire, ihmem⟩ := ih t2 hc2
    have hnot : ¬ t + debounceDelay ≤ t2 := by linarith
    have hlast : (t :: t2 :: rest2).getLastD 0 = (t2 :: rest2).getLastD 0 := by
      simp [List.getLastD_cons]
    constructor
    · show (if t + debounceDelay ≤ t2 then [t + debounceDelay] else []) ++
        debounceFireTimes (t2 :: rest2) = _
      rw [if_neg hnot, List.nil_append, ihfire, hlast]
    · intro x hx
      rw [hlast]
      rcases List.mem_cons.mp hx with hx1 | hx2
      · subst hx1
        have ht2 := ihmem t2 (List.mem_cons_self t2 rest2)
        linarith
      · exact ihmem x hx2

/-- Claim C4: for every item index k within range and every baseline render
state, a pointer-enter on item k (highlightStepAndArrow) followed by a
pointer-leave (removeHighlights) restores every step's class list and every
connector's stroke color, stroke width and highlighted class exactly to the
pre-enter baseline, leaving no residual highlighted state. -/
theorem highlight_roundtrip_restores (k : Nat) (s : DiagramState)
    (hk : k < s.steps.length) (hb : IsBaseline s) :
    removeHighlights (highlightStepAndArrow k s) = s := by
  obtain ⟨hsteps, harrows⟩ := hb
  cases s with
  | mk st ar =>
    simp only [removeHighlights, highlightStepAndArrow, DiagramState.mk.injEq]
    exact ⟨steps_enter_leave k st hsteps 0, arrows_enter_leave k ar harrows 0⟩

/-- Witness for claim C4: the enter-then-leave cycle at index 1 on a concrete
four-step baseline state restores that state exactly. -/
theorem highlight_roundtrip_restores_witness :
    1 < baselineState.steps.length ∧ IsBaseline baselineState ∧
    removeHighlights (highlightStepAndArrow 1 baselineState) = baselineState :=
  ⟨by decide, by decide,
    highlight_roundtrip_restores 1 baselineState (by decide) (by decide)⟩

/-- Claim C10: removeHighlights is a constant restore: after any sequence of
highlightStepAndArrow calls with any (even out-of-range) indices, one
removeHighlights call yields the same state as removeHighlights on the
original state; it is idempotent; and its result is a baseline state, with
every connector stroke reset to the configured constants and the highlighted
class stripped from all steps and connectors. -/
theorem removeHighlights_constant_restore (s : DiagramState) (ks : List Nat) :
    removeHighlights (ks.foldl (fun st k => highlightStepAndArrow k st) s) =
      removeHighlights s ∧
    removeHighlights (removeHighlights s) = removeHighlights s ∧
    IsBaseline (removeHighlights s) :=
  ⟨remove_after_highlights ks s, removeHighlights_idem s, isBaseline_removeHighlights s⟩

/-- Claim C8 counterexample: keyboard activation (Enter keydown) on item 0
leaves the render state completely unchanged, while pointer-enter on item 0
produces a different (highlighted) state, so keydown does not transition the
highlight state machine as pointer-enter does. -/
theorem keydown_no_highlight_counterexample :
    (stepKeydown 0 enterKey baselineState).state = baselineState ∧
    stepMouseenter 0 baselineState ≠ baselineState ∧
    (stepKeydown 0 enterKey baselineState).state ≠ stepMouseenter 0 baselineState := by
  decide

/-- Claim C8 amended: keyboard activation (Enter or space keydown) on item k
never changes the highlight state; it only prevents the default action and
logs the selected step message. Pointer events alone drive the highlight
state machine. -/
theorem keydown_logs_only (k : Nat) (key : String) (s : DiagramState) :
    (stepKeydown k key s).state = s ∧
    stepKeydown k enterKey s = ⟨s, true, ["Selected step " ++ toString (k + 1)]⟩ ∧
    stepKeydown k spaceKey s = ⟨s, true, ["Selected step " ++ toString (k + 1)]⟩ := by
  refine ⟨?_, ?_, ?_⟩
  · unfold stepKeydown
    split_ifs <;> rfl
  · unfold stepKeydown
    rw [if_pos (Or.inl rfl)]
  · unfold stepKeydown
    rw [if_pos (Or.inr rfl)]

/-- Claim C9: when the arrows SVG is absent or the step collection is empty,
init logs an error and aborts: its trace is exactly the error log, with no
positioning, no SVG setup, no arrow generation and no listener attachment,
and it returns normally (the trace function is total). -/
theorem init_missing_aborts (svgPresent : Bool) (numSteps : Nat)
    (h : svgPresent = false ∨ numSteps = 0) :
    initTrace svgPresent numSteps = [InitAction.logError] ∧
    InitAction.positionSteps ∉ initTrace svgPresent numSteps ∧
    InitAction.setupSVGStep ∉ initTrace svgPresent numSteps ∧
    InitAction.generateArrowsStep ∉ initTrace svgPresent numSteps ∧
    InitAction.attachListenersStep ∉ initTrace svgPresent numSteps := by
  have htr : initTrace svgPresent numSteps = [InitAction.logError] := by
    unfold initTrace
    rw [if_pos h]
  rw [htr]
  refine ⟨rfl, ?_, ?_, ?_, ?_⟩ <;> decide

/-- Witness for claim C9: with the SVG missing and four steps, init logs the
error and performs none of the work actions. -/
theorem init_missing_aborts_witness :
    (false = false ∨ (4 : Nat) = 0) ∧
    (initTrace false 4 = [InitAction.logError] ∧
     InitAction.positionSteps ∉ initTrace false 4 ∧
     InitAction.setupSVGStep ∉ initTrace false 4 ∧
     InitAction.generateArrowsStep ∉ initTrace false 4 ∧
     InitAction.attachListenersStep ∉ initTrace false 4) :=
  ⟨Or.inl rfl, init_missing_aborts false 4 (Or.inl rfl)⟩

/-- Claim C5 evaluation: after the initial layout pass and one resize-driven
layout pass with four steps, starting from an empty SVG, the drawing surface
holds the expected four connector paths but two accumulated defs elements
instead of one: generateArrows clears only path children, while setupSVG
appends a fresh marker-definitions element on every pass. -/
theorem svg_defs_leak_eval :
    countPaths (layoutPassChildren 4 (layoutPassChildren 4 [])) = 4 ∧
    countDefs (layoutPassChildren 4 (layoutPassChildren 4 [])) = 2 ∧
    countDefs (layoutPassChildren 4 (layoutPassChildren 4 [])) ≠ 1 := by
  decide

/-- Claim C1: for every item count of at least two and every container size,
positionStepsInCircle places consecutive items at angles spaced exactly a
full turn over the item count apart, every computed position lies at distance
0.35 times the smaller container dimension from the container midpoint, and
in the 800 by 800 container with 4 items the radius is 280, the center is
(400, 400) and the items land at (400, 120), (680, 400), (400, 680) and
(120, 400) in index order. -/
theorem positionSteps_circle_law (numSteps : Nat) (hN : 2 ≤ numSteps)
    (S : ContainerSize) (hw : 0 ≤ S.width) (hh : 0 ≤ S.height) :
    (∀ k, k < numSteps →
      stepAngle numSteps (k + 1) - stepAngle numSteps k = 2 * Real.pi / numSteps) ∧
    (∀ k, k < numSteps →
      planeDist (stepPos S numSteps k) (circleCenter S) = circleRadius S) ∧
    circleRadius ⟨800, 800⟩ = 280 ∧
    circleCenter ⟨800, 800⟩ = (400, 400) ∧
    stepPos ⟨800, 800⟩ 4 0 = (400, 120) ∧
    stepPos ⟨800, 800⟩ 4 1 = (680, 400) ∧
    stepPos ⟨800, 800⟩ 4 2 = (400, 680) ∧
    stepPos ⟨800, 800⟩ 4 3 = (120, 400) := by
  have hr : 0 ≤ circleRadius S := by
    unfold circleRadius circleSize
    have hm : 0 ≤ min S.width S.height := le_min hw hh
    nlinarith
  have hrad : circleRadius ⟨800, 800⟩ = 280 := by
    unfold circleRadius circleSize
    norm_num
  have a0 : stepAngle 4 0 = -(Real.pi / 2) := by
    unfold stepAngle
    norm_num
  have a1 : stepAngle 4 1 = 0 := by
    unfold stepAngle
    push_cast
    ring
  have a2 : stepAngle 4 2 = Real.pi / 2 := by
    unfold stepAngle
    push_cast
    ring
  have a3 : stepAngle 4 3 = Real.pi := by
    unfold stepAngle
    push_cast
    ring
  refine ⟨?_, ?_, hrad, ?_, ?_, ?_, ?_, ?_⟩
  · intro k _
    unfold stepAngle
    push_cast
    ring
  · intro k _
    have hsc := Real.sin_sq_add_cos_sq (stepAngle numSteps k)
    have h1 : (stepPos S numSteps k).1 =
        (circleCenter S).1 + Real.cos (stepAngle numSteps k) * circleRadius S := rfl
    have h2 : (stepPos S numSteps k).2 =
        (circleCenter S).2 + Real.sin (stepAngle numSteps k) * circleRadius S := rfl
    have hsq : ((stepPos S numSteps k).1 - (circleCenter S).1) ^ 2 +
        ((stepPos S numSteps k).2 - (circleCenter S).2) ^ 2 = circleRadius S ^ 2 := by
      rw [h1, h2]
      nlinarith [hsc]
    unfold planeDist
    rw [hsq, Real.sqrt_sq hr]
  · unfold circleCenter
    norm_num
  · unfold stepPos circleCenter
    rw [hrad, a0, Real.cos_neg, Real.sin_neg, Real.cos_pi_div_two, Real.sin_pi_div_two]
    norm_num
  · unfold stepPos circleCenter
    rw [hrad, a1, Real.cos_zero, Real.sin_zero]
    norm_num
  · unfold stepPos circleCenter
    rw [hrad, a2, Real.cos_pi_div_two, Real.sin_pi_div_two]
    norm_num
  · unfold stepPos circleCenter
    rw [hrad, a3, Real.cos_pi, Real.sin_pi]
    norm_num

/-- Witness for claim C1: the layout law applied to the concrete 800 by 800
container with 4 items. -/
theorem positionSteps_circle_law_witness :
    (2 ≤ 4) ∧ ((0 : ℝ) ≤ 800) ∧
    ((∀ k, k < 4 →
        stepAngle 4 (k + 1) - stepAngle 4 k = 2 * Real.pi / 4) ∧
     (∀ k, k < 4 →
        planeDist (stepPos ⟨800, 800⟩ 4 k) (circleCenter ⟨800, 800⟩) =
          circleRadius ⟨800, 800⟩) ∧
     circleRadius ⟨800, 800⟩ = 280 ∧
     circleCenter ⟨800, 800⟩ = (400, 400) ∧
     stepPos ⟨800, 800⟩ 4 0 = (400, 120) ∧
     stepPos ⟨800, 800⟩ 4 1 = (680, 400) ∧
     stepPos ⟨800, 800⟩ 4 2 = (400, 680) ∧
     stepPos ⟨800, 800⟩ 4 3 = (120, 400)) :=
  ⟨by norm_num, by norm_num,
    positionSteps_circle_law 4 (by norm_num) ⟨800, 800⟩
      (show (0 : ℝ) ≤ 800 by norm_num) (show (0 : ℝ) ≤ 800 by norm_num)⟩

/-- Claim C2: for every item count of at least one, one generateArrows call
produces exactly numSteps connector segments, the segment indices are exactly
0 up to numSteps - 1 in order (so each path carries a distinct
dataset.stepIndex in range), and the i-th segment starts at the offset point
of item i's angle and ends at the offset point of the angle of item
(i + 1) mod numSteps. -/
theorem generateArrows_cycle (centerX centerY radius : ℝ) (numSteps : Nat)
    (hN : 1 ≤ numSteps) :
    (generateArrowsBezier centerX centerY radius numSteps).length = numSteps ∧
    (generateArrowsBezier centerX centerY radius numSteps).map
      (fun p => p.stepIndex) = List.range numSteps ∧
    ∀ i, i < numSteps → ∃ p : BezierPath,
      (generateArrowsBezier centerX centerY radius numSteps)[i]? = some p ∧
      p.stepIndex = i ∧
      p.startX = centerX + Real.cos (stepAngle numSteps i) * (radius - arrowOffsetV3) ∧
      p.startY = centerY + Real.sin (stepAngle numSteps i) * (radius - arrowOffsetV3) ∧
      p.endX = centerX +
        Real.cos (stepAngle numSteps ((i + 1) % numSteps)) * (radius - arrowOffsetV3) ∧
      p.endY = centerY +
        Real.sin (stepAngle numSteps ((i + 1) % numSteps)) * (radius - arrowOffsetV3) := by
  refine ⟨by simp [generateArrowsBezier], ?_, ?_⟩
  · unfold generateArrowsBezier
    rw [List.map_map]
    have hcomp : ((fun p : BezierPath => p.stepIndex) ∘ fun i =>
        createSmoothBezierArrow (stepAngle numSteps i)
          (stepAngle numSteps ((i + 1) % numSteps)) centerX centerY radius i) = id := by
      funext i
      rfl
    rw [hcomp, List.map_id]
  · intro i hi
    refine ⟨createSmoothBezierArrow (stepAngle numSteps i)
      (stepAngle numSteps ((i + 1) % numSteps)) centerX centerY radius i,
      ?_, rfl, rfl, rfl, rfl, rfl⟩
    unfold generateArrowsBezier
    rw [List.getElem?_map, List.getElem?_range hi]
    rfl

/-- Witness for claim C2: the cycle law applied with four items on the
800 by 800 layout, instantiated at connector 1. -/
theorem generateArrows_cycle_witness :
    (1 ≤ 4) ∧ (1 < 4) ∧ ∃ p : BezierPath,
      (generateArrowsBezier 400 400 280 4)[1]? = some p ∧
      p.stepIndex = 1 ∧
      p.startX = 400 + Real.cos (stepAngle 4 1) * (280 - arrowOffsetV3) ∧
      p.startY = 400 + Real.sin (stepAngle 4 1) * (280 - arrowOffsetV3) ∧
      p.endX = 400 + Real.cos (stepAngle 4 ((1 + 1) % 4)) * (280 - arrowOffsetV3) ∧
      p.endY = 400 + Real.sin (stepAngle 4 ((1 + 1) % 4)) * (280 - arrowOffsetV3) :=
  ⟨by norm_num, by norm_num,
    (generateArrows_cycle 400 400 280 4 (by norm_num)).2.2 1 (by norm_num)⟩

/-- Claim C3 counterexample: with a single item, generateArrows still runs
its loop body once and produces one connector path, not zero. -/
theorem generateArrows_single_counterexample :
    (generateArrowsBezier 400 400 280 1).length = 1 ∧
    (generateArrowsBezier 400 400 280 1).length ≠ 0 := by
  constructor <;> simp [generateArrowsBezier]

/-- Claim C3 amended: when the item count is one, generateArrows produces
exactly one connector segment, a degenerate self-loop tagged with stepIndex 0
whose start and end points coincide; the builder is a total function, so no
error is raised. -/
theorem generateArrows_single_selfloop (centerX centerY radius : ℝ) :
    (generateArrowsBezier centerX centerY radius 1).length = 1 ∧
    ∃ p : BezierPath,
      (generateArrowsBezier centerX centerY radius 1)[0]? = some p ∧
      p.stepIndex = 0 ∧ p.startX = p.endX ∧ p.startY = p.endY := by
  have hang : stepAngle 1 ((0 + 1) % 1) = stepAngle 1 0 := by norm_num
  refine ⟨by simp [generateArrowsBezier],
    createSmoothBezierArrow (stepAngle 1 0) (stepAngle 1 ((0 + 1) % 1))
      centerX centerY radius 0, ?_, rfl, ?_, ?_⟩
  · unfold generateArrowsBezier
    rw [show List.range 1 = [0] from rfl]
    rfl
  · show centerX + Real.cos (stepAngle 1 0) * (radius - arrowOffsetV3) =
      centerX + Real.cos (stepAngle 1 ((0 + 1) % 1)) * (radius - arrowOffsetV3)
    rw [hang]
  · show centerY + Real.sin (stepAngle 1 0) * (radius - arrowOffsetV3) =
      centerY + Real.sin (stepAngle 1 ((0 + 1) % 1)) * (radius - arrowOffsetV3)
    rw [hang]

/-- Claim C6: in arc mode, for every pair of consecutive items the SVG
large-arc flag is computed from the actual post-trim angular span: the span
fed to the arc command is nonnegative, below a full turn, and congruent
modulo a full turn to the trimmed angular difference between the two items,
and the flag is 1 exactly when that span exceeds half a turn (so the arc
sweeps the short way in the clockwise ordering unless the trimmed span
itself exceeds 180 degrees). -/
theorem arc_flag_post_trim (numSteps i : Nat) (hN : 1 ≤ numSteps)
    (hi : i < numSteps) :
    0 ≤ arcSpan numSteps i ∧ arcSpan numSteps i < 2 * Real.pi ∧
    (∃ m : ℤ, arcSpan numSteps i =
      (stepAngle numSteps ((i + 1) % numSteps) - angleTrimRadians) -
        (stepAngle numSteps i + startTrimRadians i) + m * (2 * Real.pi)) ∧
    (largeArcFlag numSteps i = 1 ↔ Real.pi < arcSpan numSteps i) ∧
    (largeArcFlag numSteps i = 0 ↔ arcSpan numSteps i ≤ Real.pi) := by
  have hπ := Real.pi_pos
  have hmod : (i + 1) % numSteps < numSteps := Nat.mod_lt _ (by omega)
  have h1lb := stepAngle_lb numSteps i
  have h1ub := stepAngle_ub numSteps i hN hi
  have h2lb := stepAngle_lb numSteps ((i + 1) % numSteps)
  have h2ub := stepAngle_ub numSteps ((i + 1) % numSteps) hN hmod
  have ht0 := angleTrim_pos
  have ht1 := angleTrim_le
  have hs0 := startTrim_pos i
  have hs1 := startTrim_le i
  have hx1l : -(2 * Real.pi) ≤ stepAngle numSteps i + startTrimRadians i := by
    linarith
  have hx1u : stepAngle numSteps i + startTrimRadians i < 2 * Real.pi := by
    linarith
  have hx2l : -(2 * Real.pi) ≤
      stepAngle numSteps ((i + 1) % numSteps) - angleTrimRadians := by
    linarith
  have hx2u : stepAngle numSteps ((i + 1) % numSteps) - angleTrimRadians <
      2 * Real.pi := by
    linarith
  have hs_nonneg : 0 ≤ arrowStartAngle numSteps i := normAngle_nonneg hx1l
  have hs_lt : arrowStartAngle numSteps i < 2 * Real.pi := normAngle_lt hx1u
  have he_nonneg : 0 ≤ arrowEndAngleA numSteps i := normAngle_nonneg hx2l
  have he_lt : arrowEndAngleA numSteps i < 2 * Real.pi := normAngle_lt hx2u
  have hm1 : ∃ m : ℤ, arrowStartAngle numSteps i =
      stepAngle numSteps i + startTrimRadians i + m * (2 * Real.pi) :=
    normAngle_sub_int _
  have hm2 : ∃ m : ℤ, arrowEndAngleA numSteps i =
      stepAngle numSteps ((i + 1) % numSteps) - angleTrimRadians + m * (2 * Real.pi) :=
    normAngle_sub_int _
  obtain ⟨m1, hm1⟩ := hm1
  obtain ⟨m2, hm2⟩ := hm2
  have hspan0 : 0 ≤ arcSpan numSteps i := by
    unfold arcSpan arrowEndAngle
    split_ifs with h <;> linarith
  have hspan2 : arcSpan numSteps i < 2 * Real.pi := by
    unfold arcSpan arrowEndAngle
    split_ifs with h <;> linarith
  refine ⟨hspan0, hspan2, ?_, ?_, ?_⟩
  · unfold arcSpan arrowEndAngle
    split_ifs with h
    · refine ⟨m2 - m1 + 1, ?_⟩
      push_cast
      linarith
    · refine ⟨m2 - m1, ?_⟩
      push_cast
      linarith
  · unfold largeArcFlag
    rw [abs_of_nonneg hspan0]
    split_ifs with h
    · simp [h]
    · simp [h]
  · unfold largeArcFlag
    rw [abs_of_nonneg hspan0]
    split_ifs with h
    · constructor
      · intro h10
        exact absurd h10 (by decide)
      · intro hle
        exact absurd h (not_lt.mpr hle)
    · simp [not_lt.mp h]

/-- Witness for claim C6: the large-arc law for the first connector among
four items. -/
theorem arc_flag_post_trim_witness :
    (1 ≤ 4) ∧ (0 < 4) ∧
    (0 ≤ arcSpan 4 0 ∧ arcSpan 4 0 < 2 * Real.pi ∧
     (∃ m : ℤ, arcSpan 4 0 =
       (stepAngle 4 ((0 + 1) % 4) - angleTrimRadians) -
         (stepAngle 4 0 + startTrimRadians 0) + m * (2 * Real.pi)) ∧
     (largeArcFlag 4 0 = 1 ↔ Real.pi < arcSpan 4 0) ∧
     (largeArcFlag 4 0 = 0 ↔ arcSpan 4 0 ≤ Real.pi)) :=
  ⟨by norm_num, by norm_num, arc_flag_post_trim 4 0 (by norm_num) (by norm_num)⟩

/-- Claim C7: resize coalescing. For any nonempty burst of resize events in
which every event arrives before the previous event's debounce timer fires,
exactly one recomputation runs, namely at the debounce delay after the final
event; it therefore measures the container strictly after every event of the
burst, and every earlier pending recomputation is cancelled and never runs. -/
theorem resize_debounce_coalesces (events : List ℚ) (hne : events ≠ [])
    (hburst : List.Chain' (fun a b => a < b ∧ b < a + debounceDelay) events) :
    debounceFireTimes events = [events.getLastD 0 + debounceDelay] ∧
    (∀ t ∈ events, t < events.getLastD 0 + debounceDelay) ∧
    ∀ measure : ℚ → ℚ × ℚ,
      (debounceFireTimes events).map measure =
        [measure (events.getLastD 0 + debounceDelay)] := by
  cases events with
  | nil => exact absurd rfl hne
  | cons t rest =>
    obtain ⟨hfire, hmem⟩ := debounce_burst t rest hburst
    refine ⟨hfire, hmem, ?_⟩
    intro measure
    rw [hfire]
    rfl

/-- Witness for claim C7: a burst of three resize events at times 0, 100 and
200 (each within the 250 millisecond window of its predecessor) produces
exactly one recomputation, at time 450. -/
theorem resize_debounce_coalesces_witness :
    ([(0 : ℚ), 100, 200] ≠ []) ∧
    List.Chain' (fun a b => a < b ∧ b < a + debounceDelay) [(0 : ℚ), 100, 200] ∧
    debounceFireTimes [(0 : ℚ), 100, 200] = [450] := by
  have hne : ([(0 : ℚ), 100, 200]) ≠ [] := by
    simp
  have hch : List.Chain' (fun a b => a < b ∧ b < a + debounceDelay)
      [(0 : ℚ), 100, 200] := by
    norm_num [List.chain'_cons, List.chain'_singleton, debounceDelay]
  refine ⟨hne, hch, ?_⟩
  have h := (resize_debounce_coalesces [(0 : ℚ), 100, 200] hne hch).1
  rw [h]
  norm_num [List.getLastD_cons, List.getLastD_nil, debounceDelay]
